import Mathlib

/-!
# Timestamp-table bookkeeping of `message_template.c`

A shallow embedding of the table, cursor, reader and codec operations of
`firmware/dwm1001_dev_source_code/development/dedicated_time_protocol/message_template/message_template.c`
and the properties of them that the specification states.

Modelling conventions.

* The C arrays (`table`, `tableIndexes`, `dataIndexes`, `msg.data`) are total maps from
  indices to values; a C store `a[i] = v` is `store a i v`, a store into the two
  dimensional table is `store2`.  Bounds are stated explicitly wherever a property
  depends on them.
* `uint8` cursors are natural numbers; every value stored into a cursor is reduced
  modulo `2^8` with `u8`.
* `uint32` timestamps are natural numbers; the code never does arithmetic on them.
* Line 130 of `updateTable` calls `memcpy` with two `uint32` values as its pointer
  operands.  That raw copy between two addresses is not a store into the table; its
  effect on the shared state depends on the memory layout and is the parameter
  `RawCopy` of `updateTable`, whose result is an `Option`.
* `N`, `NODE_ID` and `NUM_STAMPS_PER_CYCLE` come from `message_template.h`, which is
  not part of the sources, so they are the fields of a `Config` parameter.
* The codec copies bytes: a struct is the byte content of its fields (`msg_bytes`), a
  buffer is a map from offsets to bytes, and the field sizes and `IDX_*` offsets, also
  from `message_template.h`, are the fields of a `Layout` parameter.
-/

namespace MessageTemplate

/-! ## Data model -/

/-- Compile-time constants of `message_template.h`: the number of nodes `N`, the
local identifier `NODE_ID` and the number of table rows `NUM_STAMPS_PER_CYCLE`. -/
structure Config where
  N : Nat
  NODE_ID : Nat
  NUM_STAMPS_PER_CYCLE : Nat

/-- The fields of the C struct `msg_template` that the table operations read:
the sender `id`, the `isFirst` flag and the timestamp payload `data`. -/
structure msg_template where
  id : Nat
  isFirst : Nat
  data : Nat → Nat

/-- The mutable state the operations share: the timestamp table
`table[NUM_STAMPS_PER_CYCLE][N]` and the two global cursor arrays
`tableIndexes[N]` (write cursors) and `dataIndexes[N]` (read cursors). -/
structure State where
  table : Nat → Nat → Nat
  tableIndexes : Nat → Nat
  dataIndexes : Nat → Nat

/-- Value kept by a `uint8` object after a store: reduction modulo `2^8`. -/
def u8 (n : Nat) : Nat := n % 256

/-- The C store `a[i] = v`. -/
def store (a : Nat → Nat) (i v : Nat) : Nat → Nat :=
  fun k => if k = i then v else a k

/-- The C store `t[i][j] = v`. -/
def store2 (t : Nat → Nat → Nat) (i j v : Nat) : Nat → Nat → Nat :=
  fun r c => if r = i ∧ c = j then v else t r c

/-- The C loop `for (i = lo; i < hi; i++) body`, for a body that does not assign `i`:
the body runs for `lo, lo+1, ..., hi-1` in that order, and not at all when `hi ≤ lo`. -/
def forLoop {σ : Type} (lo hi : Nat) (body : Nat → σ → σ) (s : σ) : σ :=
  (List.range' lo (hi - lo)).foldl (fun acc i => body i acc) s

/-! ## Initialisers -/

/-- The function `initTsTable`: two nested loops storing `0` in every cell. -/
def initTsTable (cfg : Config) (table : Nat → Nat → Nat) : Nat → Nat → Nat :=
  forLoop 0 cfg.NUM_STAMPS_PER_CYCLE
    (fun i t => forLoop 0 cfg.N (fun j t2 => store2 t2 i j 0) t) table

/-- The function `initTableIndexes`: a loop `i = 0 .. NODE_ID-1` storing `1`, then a
loop `i = NODE_ID+1 .. N-2` (the source bound is `i < N-1`) storing `0`. -/
def initTableIndexes (cfg : Config) (tableIndexes : Nat → Nat) : Nat → Nat :=
  let t1 := forLoop 0 cfg.NODE_ID (fun i t => store t i (u8 1)) tableIndexes
  forLoop (cfg.NODE_ID + 1) (cfg.N - 1) (fun i t => store t i (u8 0)) t1

/-- The function `initDataIndexes`: a loop `i = 0 .. N-2` (the source bound is
`i < N-1`) storing `2*N-2` into the `uint8` entry. -/
def initDataIndexes (cfg : Config) (dataIndexes : Nat → Nat) : Nat → Nat :=
  forLoop 0 (cfg.N - 1) (fun i t => store t i (u8 (2 * cfg.N - 2))) dataIndexes

/-- The three initialisers run at a cycle boundary, each on its own array. -/
def initCycle (cfg : Config) (s : State) : State :=
  { table := initTsTable cfg s.table
    tableIndexes := initTableIndexes cfg s.tableIndexes
    dataIndexes := initDataIndexes cfg s.dataIndexes }

/-! ## Table updates -/

/-- Modelled from the spec: `setRxTimestamp` is declared outside the sources (it is
applied to the cell itself, `setRxTimestamp(table[..][..])`); the specification says
the cell "is populated with a locally captured receive timestamp (obtained from the
external hardware-capture collaborator)".  The captured value is the argument
`captured`. -/
def setRxTimestamp (t : Nat → Nat → Nat) (i j captured : Nat) : Nat → Nat → Nat :=
  store2 t i j captured

/-- The function `updateTableRx`.  `captured` is the value the external capture
operation supplies when the `isFirst` branch runs. -/
def updateTableRx (s : State) (msg : msg_template) (captured : Nat) : State :=
  let s1 : State :=
    if msg.isFirst = 1 then
      { s with table := setRxTimestamp s.table (s.tableIndexes msg.id) msg.id captured }
    else
      { s with
        table := store2 s.table (s.tableIndexes msg.id) msg.id (msg.data (s.dataIndexes msg.id))
        dataIndexes := store s.dataIndexes msg.id (u8 (s.dataIndexes msg.id + 1)) }
  { s1 with tableIndexes := store s1.tableIndexes msg.id (u8 (s1.tableIndexes msg.id + 1)) }

/-- The effect on the shared state of a `memcpy(dst, src, 4)` whose operands `dst` and
`src` are integer values used as addresses: the 4 bytes at address `src` are copied to
address `dst`.  What this does to the table and the cursors depends on where they lie
in memory, so it is a parameter of `updateTable`: the result is `none` when the access
faults and otherwise the state the copy leaves. -/
abbrev RawCopy := Nat → Nat → State → Option State

/-- Lines 136-162 of `updateTable`: the comparison of `NODE_ID` with `msg.id` and the
two `switch` statements on `tableIndexes[NODE_ID]`. -/
def advanceCursor (cfg : Config) (msg : msg_template) (s1 : State) : State :=
  if cfg.NODE_ID < msg.id then
    match s1.tableIndexes cfg.NODE_ID with
    | 0 =>
      { s1 with
        tableIndexes := store s1.tableIndexes cfg.NODE_ID (u8 (s1.tableIndexes cfg.NODE_ID + 3)) }
    | 3 =>
      { s1 with
        tableIndexes := store s1.tableIndexes cfg.NODE_ID (u8 (s1.tableIndexes cfg.NODE_ID + 1)) }
    | _ => s1
  else if cfg.NODE_ID > msg.id then
    match s1.tableIndexes cfg.NODE_ID with
    | 1 =>
      { s1 with
        tableIndexes := store s1.tableIndexes cfg.NODE_ID (u8 (s1.tableIndexes cfg.NODE_ID + 1)) }
    | 2 =>
      { s1 with
        tableIndexes := store s1.tableIndexes cfg.NODE_ID (u8 (s1.tableIndexes cfg.NODE_ID + 3)) }
    | _ => s1
  else s1

/-- The function `updateTable`.  Under the guard `tableIndexes[NODE_ID] < 6`, source
line 130 is `memcpy(table[tableIndexes[NODE_ID]][NODE_ID], ts, sizeof(uint32))`: its
destination operand is the value of the cell and its source operand is `ts`, both
`uint32` values and not addresses, so the call is the raw copy from address `ts` to the
address held in the cell and no store into the cell.  The switches of lines 136-162
then run on the state that copy leaves.  The result is `none` when the copy faults. -/
def updateTable (rawCopy : RawCopy) (cfg : Config) (s : State) (msg : msg_template)
    (ts : Nat) : Option State :=
  if s.tableIndexes cfg.NODE_ID < 6 then
    match rawCopy (s.table (s.tableIndexes cfg.NODE_ID) cfg.NODE_ID) ts s with
    | some s1 => some (advanceCursor cfg msg s1)
    | none => none
  else some s

/-! ## Sequences of `updateTableRx` calls -/

/-- The state after a finite sequence of `updateTableRx` calls, run in order; each
call is given by its message and the value the capture operation supplies. -/
def runRx (s : State) (calls : List (msg_template × Nat)) : State :=
  calls.foldl (fun st c => updateTableRx st c.1 c.2) s

/-- Number of calls of the sequence whose message has sender `p`. -/
def rxCount (p : Nat) : List (msg_template × Nat) → Nat
  | [] => 0
  | c :: rest => (if c.1.id = p then 1 else 0) + rxCount p rest

/-- The function `getFullTs`: the loop `ts[i] = table[i][id]` over all rows.  The
state of the loop is the pair of the table and the output buffer `ts`; the result is
that pair after the loop. -/
def getFullTs (cfg : Config) (table : Nat → Nat → Nat) (ts : Nat → Nat) (id : Nat) :
    (Nat → Nat → Nat) × (Nat → Nat) :=
  forLoop 0 cfg.NUM_STAMPS_PER_CYCLE
    (fun i st => (st.1, store st.2 i (st.1 i id))) (table, ts)

/-- The function `getHalfTs`: the loop over all rows that stores each non-zero cell of
column `id` at `ts[j]` and then increments `j`.  The state of the loop is the table, the
output buffer `ts` and the local counter `j`, which starts at 0; the result is that
state after the loop, so its last component is the number of entries produced. -/
def getHalfTs (cfg : Config) (table : Nat → Nat → Nat) (ts : Nat → Nat) (id : Nat) :
    (Nat → Nat → Nat) × (Nat → Nat) × Nat :=
  forLoop 0 cfg.NUM_STAMPS_PER_CYCLE
    (fun i st =>
      if st.1 i id ≠ 0 then (st.1, store st.2.1 st.2.2 (st.1 i id), st.2.2 + 1) else st)
    (table, ts, 0)

/-- The cells of column `id` in the rows `0 .. NUM_STAMPS_PER_CYCLE-1`, in row order. -/
def column (cfg : Config) (table : Nat → Nat → Nat) (id : Nat) : List Nat :=
  (List.range cfg.NUM_STAMPS_PER_CYCLE).map (fun i => table i id)

/-! ## Message codec -/

/-- Constants of the wire layout.  The struct declaration and the `IDX_*` macros are in
`message_template.h`, which is not part of the sources, so the field sizes
`sizeof(msg->header)`, `sizeof(msg->id)`, `sizeof(msg->isFirst)`, `sizeof(msg->data)`
and the byte offsets `IDX_ID`, `IDX_ISFIRST`, `IDX_DATA`, `IDX_CRC` are parameters. -/
structure Layout where
  SIZEOF_HEADER : Nat
  SIZEOF_ID : Nat
  SIZEOF_ISFIRST : Nat
  SIZEOF_DATA : Nat
  IDX_ID : Nat
  IDX_ISFIRST : Nat
  IDX_DATA : Nat
  IDX_CRC : Nat

/-- The object representation of a `msg_template` as the codec sees it: the bytes of
the fields `header`, `id`, `isFirst` and `data`, each indexed from 0. -/
structure msg_bytes where
  header : Nat → Nat
  id : Nat → Nat
  isFirst : Nat → Nat
  data : Nat → Nat

/-- The C call `memcpy(&dst[d], &src[s], n)` between two distinct objects: the `n`
bytes `dst[d .. d+n-1]` become `src[s .. s+n-1]`, every other byte of `dst` is kept. -/
def memcpy (dst : Nat → Nat) (d : Nat) (src : Nat → Nat) (s n : Nat) : Nat → Nat :=
  fun k => if d ≤ k ∧ k < d + n then src (s + (k - d)) else dst k

/-- The function `convertToStruct`: five `memcpy` calls from the byte array into the
struct `*msg`, in source order.  The fourth copies `sizeof(msg->id)` bytes into
`msg->data`, the fifth copies the bytes at `IDX_CRC` into `msg->id`. -/
def convertToStruct (L : Layout) (array : Nat → Nat) (msg : msg_bytes) : msg_bytes :=
  let m1 : msg_bytes := { msg with header := memcpy msg.header 0 array 0 L.SIZEOF_HEADER }
  let m2 : msg_bytes := { m1 with id := memcpy m1.id 0 array L.IDX_ID L.SIZEOF_ID }
  let m3 : msg_bytes :=
    { m2 with isFirst := memcpy m2.isFirst 0 array L.IDX_ISFIRST L.SIZEOF_ISFIRST }
  let m4 : msg_bytes := { m3 with data := memcpy m3.data 0 array L.IDX_DATA L.SIZEOF_ID }
  { m4 with id := memcpy m4.id 0 array L.IDX_CRC L.SIZEOF_ID }

/-- The function `convertToArr`: five `memcpy` calls from the struct into the byte
array, in source order.  The fourth copies `sizeof(msg.id)` bytes of `msg.data`, the
fifth copies `msg.id` to `IDX_CRC`. -/
def convertToArr (L : Layout) (msg : msg_bytes) (array : Nat → Nat) : Nat → Nat :=
  let a1 := memcpy array 0 msg.header 0 L.SIZEOF_HEADER
  let a2 := memcpy a1 L.IDX_ID msg.id 0 L.SIZEOF_ID
  let a3 := memcpy a2 L.IDX_ISFIRST msg.isFirst 0 L.SIZEOF_ISFIRST
  let a4 := memcpy a3 L.IDX_DATA msg.data 0 L.SIZEOF_ID
  memcpy a4 L.IDX_CRC msg.id 0 L.SIZEOF_ID

/-! ## Concrete configurations and states used by the closed theorems -/

/-- The configuration of the specification's scenarios: `N = 4`, `NODE_ID = 2`, with
twelve rows. -/
def cfg42 : Config := { N := 4, NODE_ID := 2, NUM_STAMPS_PER_CYCLE := 12 }

/-- A state whose table and cursors are all zero. -/
def zeroState : State :=
  { table := fun _ _ => 0, tableIndexes := fun _ => 0, dataIndexes := fun _ => 0 }

/-- A message from sender `id` with the given flag and an all-zero payload. -/
def msgFrom (id isFirst : Nat) : msg_template :=
  { id := id, isFirst := isFirst, data := fun _ => 0 }

/-- The all-zero state with every write cursor set to `c`. -/
def cursorState (c : Nat) : State :=
  { zeroState with tableIndexes := fun _ => c }

/-- Eleven `updateTableRx` calls for first messages from sender 1. -/
def elevenRxFrom1 : List (msg_template × Nat) := List.replicate 11 (msgFrom 1 1, 5)

/-- Three `updateTableRx` calls: two from sender 1 and one from sender 3. -/
def threeRx : List (msg_template × Nat) :=
  [(msgFrom 1 1, 5), (msgFrom 3 1, 6), (msgFrom 1 0, 7)]

/-- A table whose even rows are empty: `table[i][j]` is 0 for even `i` and `10*i + j`
for odd `i`. -/
def sampleTable : Nat → Nat → Nat :=
  fun i j => if i % 2 = 0 then 0 else 10 * i + j

/-- A layout with a 10 byte header, a one byte id at offset 10, a one byte flag at
offset 11, a payload of two 32 bit timestamps (8 bytes) at offset 12 and the CRC at
offset 20. -/
def layout10 : Layout :=
  { SIZEOF_HEADER := 10, SIZEOF_ID := 1, SIZEOF_ISFIRST := 1, SIZEOF_DATA := 8,
    IDX_ID := 10, IDX_ISFIRST := 11, IDX_DATA := 12, IDX_CRC := 20 }

/-- A struct whose bytes are all zero. -/
def zeroMsgBytes : msg_bytes :=
  { header := fun _ => 0, id := fun _ => 0, isFirst := fun _ => 0, data := fun _ => 0 }

/-- A message for `layout10`: header bytes `0xC5`, id 1, flag 1 and the payload bytes
`1, 2, .., 8`. -/
def sampleMsgBytes : msg_bytes :=
  { header := fun k => if k < 10 then 197 else 0
    id := fun k => if k < 1 then 1 else 0
    isFirst := fun k => if k < 1 then 1 else 0
    data := fun k => if k < 8 then k + 1 else 0 }

/-- A buffer for `layout10` whose byte at offset `k` is `k + 1` for `k < 22`. -/
def sampleBuffer : Nat → Nat :=
  fun k => if k < 22 then k + 1 else 0

/-! ## Theorems -/

/-! ### Effect of the updates on each component of the state -/

theorem updateTableRx_table (s : State) (msg : msg_template) (captured : Nat) :
    (updateTableRx s msg captured).table =
      store2 s.table (s.tableIndexes msg.id) msg.id
        (if msg.isFirst = 1 then captured else msg.data (s.dataIndexes msg.id)) := by
  unfold updateTableRx setRxTimestamp
  by_cases hf : msg.isFirst = 1 <;> simp [hf]

theorem updateTableRx_tableIndexes (s : State) (msg : msg_template) (captured : Nat) :
    (updateTableRx s msg captured).tableIndexes =
      store s.tableIndexes msg.id (u8 (s.tableIndexes msg.id + 1)) := by
  unfold updateTableRx
  by_cases hf : msg.isFirst = 1 <;> simp [hf]

theorem updateTableRx_dataIndexes (s : State) (msg : msg_template) (captured : Nat) :
    (updateTableRx s msg captured).dataIndexes =
      if msg.isFirst = 1 then s.dataIndexes
      else store s.dataIndexes msg.id (u8 (s.dataIndexes msg.id + 1)) := by
  unfold updateTableRx
  by_cases hf : msg.isFirst = 1 <;> simp [hf]

theorem store_same (a : Nat → Nat) (i v : Nat) : store a i v i = v := by
  simp [store]

theorem store_other (a : Nat → Nat) (i v k : Nat) (h : k ≠ i) : store a i v k = a k := by
  simp [store, h]

theorem store2_same (t : Nat → Nat → Nat) (i j v : Nat) : store2 t i j v i j = v := by
  simp [store2]

theorem store2_other (t : Nat → Nat → Nat) (i j v r c : Nat) (h : ¬ (r = i ∧ c = j)) :
    store2 t i j v r c = t r c := by
  simp only [store2, h, if_false]

theorem u8_of_lt (n : Nat) (h : n < 256) : u8 n = n := by
  unfold u8; omega

/-! ### Loops that fill an array -/

theorem foldl_store_apply (l : List Nat) (v : Nat) (a : Nat → Nat) (k : Nat) :
    (l.foldl (fun acc i => store acc i v) a) k = if k ∈ l then v else a k := by
  induction l generalizing a with
  | nil => simp
  | cons x xs ih =>
    rw [List.foldl_cons, ih]
    by_cases hk : k ∈ xs
    · simp [hk]
    · by_cases hx : k = x
      · simp [hk, hx, store]
      · simp [hk, hx, store]

theorem mem_loop_range (lo hi k : Nat) : k ∈ List.range' lo (hi - lo) ↔ lo ≤ k ∧ k < hi := by
  rw [List.mem_range'_1]; omega

theorem forLoop_store (lo hi v : Nat) (a : Nat → Nat) (k : Nat) :
    forLoop lo hi (fun i t => store t i v) a k = if lo ≤ k ∧ k < hi then v else a k := by
  unfold forLoop
  rw [foldl_store_apply]
  simp only [mem_loop_range]

theorem foldl_store2_row (l : List Nat) (i v : Nat) (t : Nat → Nat → Nat) (r c : Nat) :
    (l.foldl (fun acc j => store2 acc i j v) t) r c = if r = i ∧ c ∈ l then v else t r c := by
  induction l generalizing t with
  | nil => simp
  | cons x xs ih =>
    rw [List.foldl_cons, ih]
    by_cases hr : r = i
    · by_cases hc : c ∈ xs
      · simp [hr, hc]
      · by_cases hx : c = x
        · simp [hr, hc, hx, store2]
        · simp [hr, hc, hx, store2]
    · simp [hr, store2]

theorem forLoop_store2_row (hi i v : Nat) (t : Nat → Nat → Nat) (r c : Nat) :
    forLoop 0 hi (fun j t2 => store2 t2 i j v) t r c = if r = i ∧ c < hi then v else t r c := by
  unfold forLoop
  rw [foldl_store2_row]
  simp only [mem_loop_range, Nat.zero_le, true_and]

theorem foldl_rows (l : List Nat) (n v : Nat) (t : Nat → Nat → Nat) (r c : Nat) :
    (l.foldl (fun acc i => forLoop 0 n (fun j t2 => store2 t2 i j v) acc) t) r c =
      if r ∈ l ∧ c < n then v else t r c := by
  induction l generalizing t with
  | nil => simp
  | cons x xs ih =>
    rw [List.foldl_cons, ih, forLoop_store2_row]
    by_cases hc : c < n
    · by_cases hr : r ∈ xs
      · simp [hr, hc]
      · by_cases hx : r = x
        · simp [hr, hc, hx]
        · simp [hr, hc, hx]
    · simp [hc]
theorem initTsTable_apply (cfg : Config) (t : Nat → Nat → Nat) (r c : Nat) :
    initTsTable cfg t r c = if r < cfg.NUM_STAMPS_PER_CYCLE ∧ c < cfg.N then 0 else t r c := by
  have h := foldl_rows (List.range' 0 (cfg.NUM_STAMPS_PER_CYCLE - 0)) cfg.N 0 t r c
  simp only [mem_loop_range, Nat.zero_le, true_and] at h
  exact h

theorem initTableIndexes_apply (cfg : Config) (a : Nat → Nat) (p : Nat) :
    initTableIndexes cfg a p =
      if cfg.NODE_ID + 1 ≤ p ∧ p < cfg.N - 1 then 0
      else if p < cfg.NODE_ID then 1 else a p := by
  unfold initTableIndexes
  simp only [forLoop_store, Nat.zero_le, true_and]
  rfl

theorem initDataIndexes_apply (cfg : Config) (a : Nat → Nat) (p : Nat) :
    initDataIndexes cfg a p = if p < cfg.N - 1 then u8 (2 * cfg.N - 2) else a p := by
  unfold initDataIndexes
  simp only [forLoop_store, Nat.zero_le, true_and]

/-! ### The guard and the switches of `updateTable` -/

theorem updateTable_guard_true (rawCopy : RawCopy) (cfg : Config) (s : State)
    (msg : msg_template) (ts : Nat) (h : s.tableIndexes cfg.NODE_ID < 6) :
    updateTable rawCopy cfg s msg ts =
      (rawCopy (s.table (s.tableIndexes cfg.NODE_ID) cfg.NODE_ID) ts s).map
        (advanceCursor cfg msg) := by
  simp only [updateTable, h, if_true]
  cases rawCopy (s.table (s.tableIndexes cfg.NODE_ID) cfg.NODE_ID) ts s <;> rfl

theorem advanceCursor_table (cfg : Config) (msg : msg_template) (s1 : State) :
    (advanceCursor cfg msg s1).table = s1.table := by
  unfold advanceCursor
  split
  · split <;> rfl
  · split
    · split <;> rfl
    · rfl

theorem runRx_cons (s : State) (c : msg_template × Nat) (rest : List (msg_template × Nat)) :
    runRx s (c :: rest) = runRx (updateTableRx s c.1 c.2) rest := rfl

theorem updateTableRx_cursor (s : State) (msg : msg_template) (captured p : Nat) :
    (updateTableRx s msg captured).tableIndexes p =
      if p = msg.id then (s.tableIndexes p + 1) % 256 else s.tableIndexes p := by
  rw [updateTableRx_tableIndexes]
  by_cases h : p = msg.id
  · subst h; simp [store, u8]
  · simp [store, h]

theorem runRx_cursor (p : Nat) (calls : List (msg_template × Nat)) :
    ∀ s : State, s.tableIndexes p < 256 →
      (runRx s calls).tableIndexes p = (s.tableIndexes p + rxCount p calls) % 256 := by
  induction calls with
  | nil =>
    intro s hs
    show s.tableIndexes p = (s.tableIndexes p + 0) % 256
    omega
  | cons c rest ih =>
    intro s hs
    rw [runRx_cons]
    have hstep := updateTableRx_cursor s c.1 c.2 p
    have hlt : (updateTableRx s c.1 c.2).tableIndexes p < 256 := by
      rw [hstep]; split <;> omega
    rw [ih _ hlt, hstep]
    show _ = (s.tableIndexes p + ((if c.1.id = p then 1 else 0) + rxCount p rest)) % 256
    by_cases h : p = c.1.id
    · have h2 : c.1.id = p := h.symm
      simp only [h2, if_true]
      omega
    · have h2 : ¬ c.1.id = p := fun e => h e.symm
      simp only [h, h2, if_false]
      omega

theorem foldl_getFull (l : List Nat) (id : Nat) (t : Nat → Nat → Nat) :
    ∀ ts : Nat → Nat,
      l.foldl (fun (st : (Nat → Nat → Nat) × (Nat → Nat)) i =>
          (st.1, store st.2 i (st.1 i id))) (t, ts) =
        (t, fun k => if k ∈ l then t k id else ts k) := by
  induction l with
  | nil => intro ts; simp
  | cons x xs ih =>
    intro ts
    rw [List.foldl_cons, ih]
    refine Prod.ext rfl (funext fun k => ?_)
    by_cases hk : k ∈ xs
    · simp [hk]
    · by_cases hx : k = x
      · simp [hk, hx, store]
      · simp [hk, hx, store]

theorem getFullTs_eq (cfg : Config) (t : Nat → Nat → Nat) (ts : Nat → Nat) (id : Nat) :
    getFullTs cfg t ts id =
      (t, fun k => if k < cfg.NUM_STAMPS_PER_CYCLE then t k id else ts k) := by
  have h := foldl_getFull (List.range' 0 (cfg.NUM_STAMPS_PER_CYCLE - 0)) id t ts
  simp only [mem_loop_range, Nat.zero_le, true_and] at h
  exact h

theorem foldl_getHalf (l : List Nat) (id : Nat) (t : Nat → Nat → Nat) :
    ∀ (ts : Nat → Nat) (j : Nat),
      l.foldl (fun (st : (Nat → Nat → Nat) × (Nat → Nat) × Nat) i =>
          if st.1 i id ≠ 0 then (st.1, store st.2.1 st.2.2 (st.1 i id), st.2.2 + 1) else st)
          (t, ts, j) =
        (t,
          (fun k =>
            if j ≤ k ∧ k < j + ((l.map (fun i => t i id)).filter (fun v => v ≠ 0)).length then
              ((l.map (fun i => t i id)).filter (fun v => v ≠ 0)).getD (k - j) 0
            else ts k),
          j + ((l.map (fun i => t i id)).filter (fun v => v ≠ 0)).length) := by
  induction l with
  | nil =>
    intro ts j
    refine Prod.ext rfl (Prod.ext (funext fun k => ?_) rfl)
    have hn : ¬ (j ≤ k ∧ k < j) := by omega
    simp [hn]
  | cons x xs ih =>
    intro ts j
    rw [List.foldl_cons]
    by_cases hx : t x id = 0
    · simp only [hx, ne_eq, not_true_eq_false, if_false]
      rw [ih]
      simp [hx]
    · simp only [ne_eq, hx, not_false_eq_true, if_true]
      rw [ih]
      have hf : ((x :: xs).map (fun i => t i id)).filter (fun v => v ≠ 0) =
          t x id :: (xs.map (fun i => t i id)).filter (fun v => v ≠ 0) := by
        simp [List.filter_cons, hx]
      rw [hf]
      refine Prod.ext rfl (Prod.ext (funext fun k => ?_) ?_)
      · simp only [List.length_cons]
        by_cases h1 : j + 1 ≤ k
        · obtain ⟨d, rfl⟩ : ∃ d, k = j + 1 + d := ⟨k - (j + 1), by omega⟩
          have e1 : j + 1 + d - (j + 1) = d := by omega
          have e2 : j + 1 + d - j = d + 1 := by omega
          rw [e1, e2, List.getD_cons_succ]
          by_cases h2 : d < ((xs.map (fun i => t i id)).filter (fun v => v ≠ 0)).length
          · have c1 : j + 1 ≤ j + 1 + d ∧ j + 1 + d <
                j + 1 + ((xs.map (fun i => t i id)).filter (fun v => v ≠ 0)).length := by omega
            have c2 : j ≤ j + 1 + d ∧ j + 1 + d <
                j + (((xs.map (fun i => t i id)).filter (fun v => v ≠ 0)).length + 1) := by omega
            simp only [c1, c2, and_self, if_true]
          · have c1 : ¬ (j + 1 ≤ j + 1 + d ∧ j + 1 + d <
                j + 1 + ((xs.map (fun i => t i id)).filter (fun v => v ≠ 0)).length) := by omega
            have c2 : ¬ (j ≤ j + 1 + d ∧ j + 1 + d <
                j + (((xs.map (fun i => t i id)).filter (fun v => v ≠ 0)).length + 1)) := by omega
            simp only [c1, c2, if_false]
            exact store_other _ _ _ _ (by omega)
        · have c1 : ¬ (j + 1 ≤ k ∧ k <
              j + 1 + ((xs.map (fun i => t i id)).filter (fun v => v ≠ 0)).length) := by omega
          simp only [c1, if_false]
          by_cases h2 : k = j
          · subst h2
            have c2 : k ≤ k ∧ k <
                k + (((xs.map (fun i => t i id)).filter (fun v => v ≠ 0)).length + 1) := by omega
            simp only [c2, and_self, if_true, Nat.sub_self, List.getD_cons_zero, store_same]
          · have c2 : ¬ (j ≤ k ∧ k <
                j + (((xs.map (fun i => t i id)).filter (fun v => v ≠ 0)).length + 1)) := by omega
            simp only [c2, if_false]
            exact store_other _ _ _ _ h2
      · simp only [List.length_cons]; omega

theorem getHalfTs_eq (cfg : Config) (t : Nat → Nat → Nat) (ts : Nat → Nat) (id : Nat) :
    getHalfTs cfg t ts id =
      (t,
        (fun k =>
          if k < ((column cfg t id).filter (fun v => v ≠ 0)).length then
            ((column cfg t id).filter (fun v => v ≠ 0)).getD k 0
          else ts k),
        ((column cfg t id).filter (fun v => v ≠ 0)).length) := by
  have h := foldl_getHalf (List.range' 0 (cfg.NUM_STAMPS_PER_CYCLE - 0)) id t ts 0
  simp only [Nat.zero_le, true_and, Nat.zero_add, Nat.sub_zero] at h
  rw [column, List.range_eq_range']
  exact h

theorem nonzero_length_le (cfg : Config) (t : Nat → Nat → Nat) (id : Nat) :
    ((column cfg t id).filter (fun v => v ≠ 0)).length ≤ cfg.NUM_STAMPS_PER_CYCLE := by
  have h := List.length_filter_le (fun v => decide (v ≠ 0)) (column cfg t id)
  simpa [column] using h

theorem nonzero_getD_ne_zero (l : List Nat) (k : Nat)
    (hk : k < (l.filter (fun v => v ≠ 0)).length) :
    (l.filter (fun v => v ≠ 0)).getD k 0 ≠ 0 := by
  have hmem : (l.filter (fun v => v ≠ 0))[k] ∈ l.filter (fun v => v ≠ 0) :=
    List.getElem_mem hk
  rw [List.getD_eq_getElem _ _ hk]
  simpa using (List.mem_filter.mp hmem).2

/-! ### The codec -/

theorem convertToStruct_data (L : Layout) (array : Nat → Nat) (msg : msg_bytes) (k : Nat) :
    (convertToStruct L array msg).data k =
      if k < L.SIZEOF_ID then array (L.IDX_DATA + k) else msg.data k := by
  simp [convertToStruct, memcpy]

theorem convertToStruct_id (L : Layout) (array : Nat → Nat) (msg : msg_bytes) (k : Nat) :
    (convertToStruct L array msg).id k =
      if k < L.SIZEOF_ID then array (L.IDX_CRC + k) else msg.id k := by
  simp only [convertToStruct, memcpy, Nat.zero_le, true_and, Nat.zero_add, Nat.sub_zero]
  split <;> rfl

/-! ### The claims -/

/-- C2 fails at `N = 4`, `NODE_ID = 2`, table all zero, local cursor 0 and `ts = 9`:
the call runs the raw copy from address 9 to address 0 and never stores into
`table[0][2]`.  When the copy faults there is no resulting state; otherwise the table
after the call is the table the copy leaves, so `table[0][2]` is still 0, not 9, when
the copy leaves the shared state as it was. -/
theorem updateTable_stores_no_cell (rawCopy : RawCopy) :
    (rawCopy 0 9 zeroState = none →
      updateTable rawCopy cfg42 zeroState (msgFrom 3 0) 9 = none) ∧
    (∀ s1 : State, rawCopy 0 9 zeroState = some s1 →
      (updateTable rawCopy cfg42 zeroState (msgFrom 3 0) 9).map (fun s => s.table) =
        some s1.table) ∧
    (rawCopy 0 9 zeroState = some zeroState →
      (updateTable rawCopy cfg42 zeroState (msgFrom 3 0) 9).map (fun s => s.table 0 2) =
        some 0) := by
  have hg : zeroState.tableIndexes cfg42.NODE_ID < 6 := by decide
  rw [updateTable_guard_true rawCopy cfg42 zeroState (msgFrom 3 0) 9 hg]
  have hcell : zeroState.table (zeroState.tableIndexes cfg42.NODE_ID) cfg42.NODE_ID = 0 := rfl
  rw [hcell]
  refine ⟨fun h => ?_, fun s1 h => ?_, fun h => ?_⟩
  · rw [h]; rfl
  · rw [h]
    exact congrArg some (advanceCursor_table cfg42 (msgFrom 3 0) s1)
  · rw [h]
    exact congrArg some (congrFun (congrFun (advanceCursor_table cfg42 (msgFrom 3 0) zeroState) 0) 2)

/-- C4: for a message with `isFirst == 1` and a valid sender id, `updateTableRx` stores
the captured receive timestamp in `table[w][msg.id]`, with `w` the value of
`tableIndexes[msg.id]` before the call, leaves `dataIndexes[msg.id]` unchanged and
advances `tableIndexes[msg.id]` by one (as a `uint8`: to `w+1` for `w < 255`). -/
theorem updateTableRx_first (cfg : Config) (s : State) (msg : msg_template)
    (captured : Nat) (hf : msg.isFirst = 1) (_hid : msg.id < cfg.N) :
    (updateTableRx s msg captured).table (s.tableIndexes msg.id) msg.id = captured ∧
    (updateTableRx s msg captured).dataIndexes msg.id = s.dataIndexes msg.id ∧
    (updateTableRx s msg captured).tableIndexes msg.id = u8 (s.tableIndexes msg.id + 1) ∧
    (s.tableIndexes msg.id < 255 →
      (updateTableRx s msg captured).tableIndexes msg.id = s.tableIndexes msg.id + 1) := by
  rw [updateTableRx_table, updateTableRx_dataIndexes, updateTableRx_tableIndexes]
  simp only [hf, if_true, store2_same, store_same, true_and]
  intro h
  exact u8_of_lt _ (by omega)

/-- Witness for C4 at `N = 4`, sender 1, write cursor 1: `table[1][1]` receives the
captured value 77, which is not the payload entry, and the cursor becomes 2. -/
theorem updateTableRx_first_witness :
    ((msgFrom 1 1).isFirst = 1 ∧ (msgFrom 1 1).id < cfg42.N) ∧
    (updateTableRx (cursorState 1) (msgFrom 1 1) 77).table 1 1 = 77 ∧
    (updateTableRx (cursorState 1) (msgFrom 1 1) 77).tableIndexes 1 = 2 :=
  ⟨⟨by decide, by decide⟩,
    (updateTableRx_first cfg42 (cursorState 1) (msgFrom 1 1) 77 (by decide) (by decide)).1,
    (updateTableRx_first cfg42 (cursorState 1) (msgFrom 1 1) 77 (by decide) (by decide)).2.2.2
      (by decide)⟩

/-- C5: for a message with a valid sender id, when `isFirst` is not 1 `updateTableRx`
sets `table[w][msg.id]` to `msg.data[r]`, with `w = tableIndexes[msg.id]` and
`r = dataIndexes[msg.id]` before the call, and advances `dataIndexes[msg.id]` by one;
in both branches `tableIndexes[msg.id]` advances by exactly one (the cursors are
`uint8`: the new values are `r+1` for `r < 255` and `w+1` for `w < 255`). -/
theorem updateTableRx_relay (cfg : Config) (s : State) (msg : msg_template)
    (captured : Nat) (_hid : msg.id < cfg.N) :
    (msg.isFirst ≠ 1 →
      (updateTableRx s msg captured).table (s.tableIndexes msg.id) msg.id =
        msg.data (s.dataIndexes msg.id) ∧
      (updateTableRx s msg captured).dataIndexes msg.id = u8 (s.dataIndexes msg.id + 1) ∧
      (s.dataIndexes msg.id < 255 →
        (updateTableRx s msg captured).dataIndexes msg.id = s.dataIndexes msg.id + 1)) ∧
    (updateTableRx s msg captured).tableIndexes msg.id = u8 (s.tableIndexes msg.id + 1) ∧
    (s.tableIndexes msg.id < 255 →
      (updateTableRx s msg captured).tableIndexes msg.id = s.tableIndexes msg.id + 1) := by
  rw [updateTableRx_table, updateTableRx_dataIndexes, updateTableRx_tableIndexes]
  refine ⟨fun hf => ?_, store_same _ _ _, fun h => ?_⟩
  · simp only [hf, if_false, store2_same, store_same, true_and]
    intro h
    exact u8_of_lt _ (by omega)
  · rw [store_same]; exact u8_of_lt _ (by omega)

/-- Witness for C5 at `N = 4`, sender 1, write cursor 1, read cursor 0 and payload
`data[0] = 55`: `table[1][1]` receives 55, the read cursor becomes 1 and the write
cursor 2. -/
theorem updateTableRx_relay_witness :
    (1 < cfg42.N ∧ (0 : Nat) ≠ 1) ∧
    (updateTableRx (cursorState 1) { id := 1, isFirst := 0, data := fun _ => 55 } 77).table 1 1
      = 55 ∧
    (updateTableRx (cursorState 1) { id := 1, isFirst := 0, data := fun _ => 55 } 77).dataIndexes 1
      = 1 ∧
    (updateTableRx (cursorState 1) { id := 1, isFirst := 0, data := fun _ => 55 } 77).tableIndexes 1
      = 2 :=
  ⟨⟨by decide, by decide⟩,
    ((updateTableRx_relay cfg42 (cursorState 1) { id := 1, isFirst := 0, data := fun _ => 55 } 77
      (by decide)).1 (by decide)).1,
    ((updateTableRx_relay cfg42 (cursorState 1) { id := 1, isFirst := 0, data := fun _ => 55 } 77
      (by decide)).1 (by decide)).2.2 (by decide),
    (updateTableRx_relay cfg42 (cursorState 1) { id := 1, isFirst := 0, data := fun _ => 55 } 77
      (by decide)).2.2 (by decide)⟩

/-- C6 fails at `N = 4`, `NODE_ID = 2` when the cursor array holds 7 everywhere before
the call: `initTableIndexes` sets the entries 0 and 1 to 1 but never stores into entry
3 (the second loop runs for `NODE_ID+1 <= i < N-1`, which is empty), so peer 3 keeps
the cursor 7 instead of 0. -/
theorem initTableIndexes_misses_last_peer :
    initTableIndexes cfg42 (fun _ => 7) 0 = 1 ∧
    initTableIndexes cfg42 (fun _ => 7) 1 = 1 ∧
    initTableIndexes cfg42 (fun _ => 7) 3 = 7 := by
  decide

/-- C7 fails at `N = 4` when the read-cursor array holds 9 everywhere before the call:
`initDataIndexes` stores the sentinel `2*N-2 = 6` into the entries 0, 1 and 2 but never
into entry 3 (the loop runs for `i < N-1`), so peer 3 keeps the read cursor 9. -/
theorem initDataIndexes_misses_last_peer :
    2 * cfg42.N - 2 = 6 ∧
    initDataIndexes cfg42 (fun _ => 9) 0 = 6 ∧
    initDataIndexes cfg42 (fun _ => 9) 1 = 6 ∧
    initDataIndexes cfg42 (fun _ => 9) 2 = 6 ∧
    initDataIndexes cfg42 (fun _ => 9) 3 = 9 := by
  decide

/-- C8 as stated fails at `N = 4`, `NODE_ID = 2`: from a prior state whose write
cursors are all 0 and one whose write cursors are all 5, the three initialisers leave
the local write cursor `tableIndexes[2]` at 0 and at 5 respectively. -/
theorem initCycle_local_cursor_survives :
    (initCycle cfg42 zeroState).tableIndexes 2 = 0 ∧
    (initCycle cfg42 (cursorState 5)).tableIndexes 2 = 5 := by
  decide

/-- C8 (amended): for any two prior states the three initialisers yield the same
table, the same write cursor for every peer `p < N-1` other than `NODE_ID` and the
same read cursor for every `p < N-1`; the local write cursor `tableIndexes[NODE_ID]`
is not reset: it keeps the value it had in the prior state. -/
theorem initCycle_reset (cfg : Config) (s1 s2 : State) :
    (∀ i j : Nat, i < cfg.NUM_STAMPS_PER_CYCLE → j < cfg.N →
      (initCycle cfg s1).table i j = (initCycle cfg s2).table i j) ∧
    (∀ p : Nat, p < cfg.N - 1 → p ≠ cfg.NODE_ID →
      (initCycle cfg s1).tableIndexes p = (initCycle cfg s2).tableIndexes p) ∧
    (∀ p : Nat, p < cfg.N - 1 →
      (initCycle cfg s1).dataIndexes p = (initCycle cfg s2).dataIndexes p) ∧
    (initCycle cfg s1).tableIndexes cfg.NODE_ID = s1.tableIndexes cfg.NODE_ID := by
  refine ⟨fun i j hi hj => ?_, fun p hp hne => ?_, fun p hp => ?_, ?_⟩
  · show initTsTable cfg s1.table i j = initTsTable cfg s2.table i j
    simp only [initTsTable_apply, hi, hj, and_self, if_true]
  · show initTableIndexes cfg s1.tableIndexes p = initTableIndexes cfg s2.tableIndexes p
    rw [initTableIndexes_apply, initTableIndexes_apply]
    by_cases h1 : p < cfg.NODE_ID
    · have h2 : ¬ (cfg.NODE_ID + 1 ≤ p ∧ p < cfg.N - 1) := by omega
      simp only [h1, h2, if_true, if_false]
    · have h2 : cfg.NODE_ID + 1 ≤ p ∧ p < cfg.N - 1 := by omega
      simp only [h2, and_self, if_true]
  · show initDataIndexes cfg s1.dataIndexes p = initDataIndexes cfg s2.dataIndexes p
    simp only [initDataIndexes_apply, hp, if_true]
  · show initTableIndexes cfg s1.tableIndexes cfg.NODE_ID = s1.tableIndexes cfg.NODE_ID
    rw [initTableIndexes_apply]
    have h2 : ¬ (cfg.NODE_ID + 1 ≤ cfg.NODE_ID ∧ cfg.NODE_ID < cfg.N - 1) := by omega
    simp only [h2, if_false, Nat.lt_irrefl]

/-- C9 as stated fails at `N = 4`, `NODE_ID = 2`, `NUM_STAMPS_PER_CYCLE = 12`: from the
initialised state, eleven `updateTableRx` calls with the valid sender id 1 drive
`tableIndexes[1]` from 1 to 12, which is not below `NUM_STAMPS_PER_CYCLE`. -/
theorem peer_cursor_leaves_rows_counterexample :
    (msgFrom 1 1).id < cfg42.N ∧
    (initCycle cfg42 zeroState).tableIndexes 1 = 1 ∧
    (runRx (initCycle cfg42 zeroState) elevenRxFrom1).tableIndexes 1 = 12 ∧
    ¬ (12 < cfg42.NUM_STAMPS_PER_CYCLE) := by
  decide

/-- C9 (amended): in every state reached from the initialised state by a finite
sequence of `updateTableRx` calls with valid sender ids, the write cursor of a peer
`p < N-1` other than `NODE_ID` is its initial value (1 when `p < NODE_ID`, else 0) plus
the number of calls from sender `p`, as a `uint8` (modulo 256); so it is below
`NUM_STAMPS_PER_CYCLE` whenever that sum is. -/
theorem peer_cursor_after_calls (cfg : Config) (s0 : State)
    (calls : List (msg_template × Nat)) (p : Nat)
    (hp : p < cfg.N - 1) (hne : p ≠ cfg.NODE_ID)
    (_hvalid : ∀ c ∈ calls, c.1.id < cfg.N) :
    (runRx (initCycle cfg s0) calls).tableIndexes p =
      ((if p < cfg.NODE_ID then 1 else 0) + rxCount p calls) % 256 ∧
    ((if p < cfg.NODE_ID then 1 else 0) + rxCount p calls < cfg.NUM_STAMPS_PER_CYCLE →
      (runRx (initCycle cfg s0) calls).tableIndexes p < cfg.NUM_STAMPS_PER_CYCLE) := by
  have hinit : (initCycle cfg s0).tableIndexes p = if p < cfg.NODE_ID then 1 else 0 := by
    show initTableIndexes cfg s0.tableIndexes p = _
    rw [initTableIndexes_apply]
    by_cases h1 : p < cfg.NODE_ID
    · have h2 : ¬ (cfg.NODE_ID + 1 ≤ p ∧ p < cfg.N - 1) := by omega
      simp only [h1, h2, if_true, if_false]
    · have h2 : cfg.NODE_ID + 1 ≤ p ∧ p < cfg.N - 1 := by omega
      simp only [h1, h2, and_self, if_true, if_false]
  have hlt : (initCycle cfg s0).tableIndexes p < 256 := by
    rw [hinit]; split <;> omega
  have hrun := runRx_cursor p calls (initCycle cfg s0) hlt
  rw [hinit] at hrun
  refine ⟨hrun, fun hb => ?_⟩
  rw [hrun]
  exact lt_of_le_of_lt (Nat.mod_le _ _) hb

/-- Witness for C9 (amended) at `N = 4`, `NODE_ID = 2`, peer 1 and a sequence with two
calls from sender 1 and one from sender 3: the cursor is `1 + 2 = 3`, below the 12
rows. -/
theorem peer_cursor_after_calls_witness :
    ((1 < cfg42.N - 1 ∧ 1 ≠ cfg42.NODE_ID) ∧ ∀ c ∈ threeRx, c.1.id < cfg42.N) ∧
    (runRx (initCycle cfg42 zeroState) threeRx).tableIndexes 1 = 3 ∧
    (runRx (initCycle cfg42 zeroState) threeRx).tableIndexes 1 <
      cfg42.NUM_STAMPS_PER_CYCLE :=
  ⟨⟨⟨by decide, by decide⟩, by decide⟩,
    (peer_cursor_after_calls cfg42 zeroState threeRx 1 (by decide) (by decide)
      (by decide)).1,
    (peer_cursor_after_calls cfg42 zeroState threeRx 1 (by decide) (by decide)
      (by decide)).2 (by decide)⟩

/-- C12 fails for `layout10` (one byte id, eight payload bytes): encoding
`sampleMsgBytes` into a zeroed buffer and decoding that buffer into a zeroed struct
gives back the header, the id, the flag and the first payload byte, but the payload
byte 1 is 0 where the message holds 2: both functions copy only `sizeof(msg.id)`
bytes of the payload. -/
theorem codec_struct_roundtrip_drops_payload :
    (convertToStruct layout10 (convertToArr layout10 sampleMsgBytes (fun _ => 0))
      zeroMsgBytes).header 9 = sampleMsgBytes.header 9 ∧
    (convertToStruct layout10 (convertToArr layout10 sampleMsgBytes (fun _ => 0))
      zeroMsgBytes).id 0 = sampleMsgBytes.id 0 ∧
    (convertToStruct layout10 (convertToArr layout10 sampleMsgBytes (fun _ => 0))
      zeroMsgBytes).isFirst 0 = sampleMsgBytes.isFirst 0 ∧
    (convertToStruct layout10 (convertToArr layout10 sampleMsgBytes (fun _ => 0))
      zeroMsgBytes).data 0 = sampleMsgBytes.data 0 ∧
    (convertToStruct layout10 (convertToArr layout10 sampleMsgBytes (fun _ => 0))
      zeroMsgBytes).data 1 = 0 ∧
    sampleMsgBytes.data 1 = 2 := by
  decide

/-- C13 fails for `layout10`: decoding `sampleBuffer` and encoding the result back
over the same buffer leaves the byte 21 of the CRC offset at `IDX_ID`, where the buffer
held 11; encoding into a zeroed buffer instead also leaves the payload byte at
`IDX_DATA + 1` at 0, where the buffer held 14. -/
theorem codec_bytes_roundtrip_changes_id :
    sampleBuffer layout10.IDX_ID = 11 ∧
    sampleBuffer layout10.IDX_CRC = 21 ∧
    convertToArr layout10 (convertToStruct layout10 sampleBuffer zeroMsgBytes) sampleBuffer
      layout10.IDX_ID = 21 ∧
    sampleBuffer (layout10.IDX_DATA + 1) = 14 ∧
    convertToArr layout10 (convertToStruct layout10 sampleBuffer zeroMsgBytes) (fun _ => 0)
      (layout10.IDX_DATA + 1) = 0 := by
  decide

/-- C14: for every table content, after `initTsTable` every cell `table[i][j]` with
`i < NUM_STAMPS_PER_CYCLE` and `j < N` equals 0. -/
theorem initTsTable_zero (cfg : Config) (table : Nat → Nat → Nat) (i j : Nat)
    (hi : i < cfg.NUM_STAMPS_PER_CYCLE) (hj : j < cfg.N) :
    initTsTable cfg table i j = 0 := by
  rw [initTsTable_apply]
  simp only [hi, hj, and_self, if_true]

/-- Witness for C14 at `N = 4` with twelve rows and a table holding 7 everywhere: the
last cell `table[11][3]` is 0 after the call. -/
theorem initTsTable_zero_witness :
    (11 < cfg42.NUM_STAMPS_PER_CYCLE ∧ 3 < cfg42.N) ∧
    initTsTable cfg42 (fun _ _ => 7) 11 3 = 0 :=
  ⟨⟨by decide, by decide⟩, initTsTable_zero cfg42 (fun _ _ => 7) 11 3 (by decide) (by decide)⟩

/-- C15: for every table and node id below `N`, `getFullTs` produces exactly
`NUM_STAMPS_PER_CYCLE` entries, entry `i` being `table[i][id]` for every row `i`
(zero cells included): the output buffer is untouched from index
`NUM_STAMPS_PER_CYCLE` on, and the table is left unchanged. -/
theorem getFullTs_column (cfg : Config) (table : Nat → Nat → Nat) (ts : Nat → Nat)
    (id : Nat) (_hid : id < cfg.N) :
    (getFullTs cfg table ts id).1 = table ∧
    (∀ i : Nat, i < cfg.NUM_STAMPS_PER_CYCLE → (getFullTs cfg table ts id).2 i = table i id) ∧
    (∀ i : Nat, cfg.NUM_STAMPS_PER_CYCLE ≤ i → (getFullTs cfg table ts id).2 i = ts i) := by
  rw [getFullTs_eq]
  refine ⟨rfl, fun i hi => ?_, fun i hi => ?_⟩
  · simp only [hi, if_true]
  · have hn : ¬ i < cfg.NUM_STAMPS_PER_CYCLE := by omega
    simp only [hn, if_false]

/-- Witness for C15 with twelve rows, column 1 of `sampleTable` and an output buffer
holding 99: entry 0 is the zero cell, entry 3 is 31 and index 12 still holds 99. -/
theorem getFullTs_column_witness :
    1 < cfg42.N ∧
    (getFullTs cfg42 sampleTable (fun _ => 99) 1).2 0 = 0 ∧
    (getFullTs cfg42 sampleTable (fun _ => 99) 1).2 3 = 31 ∧
    (getFullTs cfg42 sampleTable (fun _ => 99) 1).2 12 = 99 :=
  ⟨by decide,
    ((getFullTs_column cfg42 sampleTable (fun _ => 99) 1 (by decide)).2.1 0 (by decide)).trans
      (by decide),
    ((getFullTs_column cfg42 sampleTable (fun _ => 99) 1 (by decide)).2.1 3 (by decide)).trans
      (by decide),
    (getFullTs_column cfg42 sampleTable (fun _ => 99) 1 (by decide)).2.2 12 (by decide)⟩

/-- C16: for every table and node id below `N`, the entries `getHalfTs` produces
(`ts[0] .. ts[j-1]` for the final value of its counter `j`) are exactly the non-zero
cells of column `id` in increasing row order, so their number is the number of
non-zero cells of that column. -/
theorem getHalfTs_nonzero_cells (cfg : Config) (table : Nat → Nat → Nat) (ts : Nat → Nat)
    (id : Nat) (_hid : id < cfg.N) :
    (List.range (getHalfTs cfg table ts id).2.2).map (getHalfTs cfg table ts id).2.1 =
      (column cfg table id).filter (fun v => v ≠ 0) ∧
    (getHalfTs cfg table ts id).2.2 = (column cfg table id).countP (fun v => v ≠ 0) := by
  rw [getHalfTs_eq]
  refine ⟨?_, ?_⟩
  · apply List.ext_getElem
    · simp
    · intro n h1 h2
      have hn : n < ((column cfg table id).filter (fun v => v ≠ 0)).length := h2
      simp only [List.getElem_map, List.getElem_range, hn, if_true]
      exact List.getD_eq_getElem _ _ hn
  · exact (List.countP_eq_length_filter _ _).symm

/-- Witness for C16 with twelve rows and column 1 of `sampleTable`: six entries,
`11, 31, 51, 71, 91, 111`. -/
theorem getHalfTs_nonzero_cells_witness :
    1 < cfg42.N ∧
    (getHalfTs cfg42 sampleTable (fun _ => 99) 1).2.2 = 6 ∧
    (List.range (getHalfTs cfg42 sampleTable (fun _ => 99) 1).2.2).map
        (getHalfTs cfg42 sampleTable (fun _ => 99) 1).2.1 = [11, 31, 51, 71, 91, 111] :=
  ⟨by decide, by decide,
    ((getHalfTs_nonzero_cells cfg42 sampleTable (fun _ => 99) 1 (by decide)).1).trans
      (by decide)⟩

/-- C17 as stated fails with twelve rows (buffer capacity `12/2 = 6`): for a table
holding 7 in every cell, `getHalfTs` produces 12 entries and stores at output index 6,
which held 0 before the call. -/
theorem getHalfTs_exceeds_half_counterexample :
    1 < cfg42.N ∧
    (getHalfTs cfg42 (fun _ _ => 7) (fun _ => 0) 1).2.2 = 12 ∧
    ¬ (cfg42.NUM_STAMPS_PER_CYCLE / 2 > 6) ∧
    (getHalfTs cfg42 (fun _ _ => 7) (fun _ => 0) 1).2.1 6 = 7 := by
  decide

/-- C17 (amended): for every table and node id below `N`, `getHalfTs` stores at the
output indices `0 .. k-1` and at no other, where `k` is the number of non-zero cells of
column `id`, which is at most `NUM_STAMPS_PER_CYCLE`; it stays within a buffer of
`NUM_STAMPS_PER_CYCLE/2` entries whenever the column holds at most
`NUM_STAMPS_PER_CYCLE/2` non-zero cells. -/
theorem getHalfTs_store_indices (cfg : Config) (table : Nat → Nat → Nat) (ts : Nat → Nat)
    (id : Nat) (_hid : id < cfg.N) :
    (getHalfTs cfg table ts id).2.2 = (column cfg table id).countP (fun v => v ≠ 0) ∧
    (getHalfTs cfg table ts id).2.2 ≤ cfg.NUM_STAMPS_PER_CYCLE ∧
    (∀ m : Nat, m < (getHalfTs cfg table ts id).2.2 → (getHalfTs cfg table ts id).2.1 m ≠ 0) ∧
    (∀ m : Nat, (getHalfTs cfg table ts id).2.2 ≤ m → (getHalfTs cfg table ts id).2.1 m = ts m) ∧
    ((column cfg table id).countP (fun v => v ≠ 0) ≤ cfg.NUM_STAMPS_PER_CYCLE / 2 →
      ∀ m : Nat, cfg.NUM_STAMPS_PER_CYCLE / 2 ≤ m →
        (getHalfTs cfg table ts id).2.1 m = ts m) := by
  have hc : (column cfg table id).countP (fun v => v ≠ 0) =
      ((column cfg table id).filter (fun v => v ≠ 0)).length :=
    List.countP_eq_length_filter _ _
  rw [getHalfTs_eq, hc]
  refine ⟨rfl, nonzero_length_le cfg table id, fun m hm => ?_, fun m hm => ?_,
    fun hk m hm => ?_⟩
  · have hm2 : m < ((column cfg table id).filter (fun v => v ≠ 0)).length := hm
    simp only [hm2, if_true]
    exact nonzero_getD_ne_zero _ _ hm2
  · have hm2 : ¬ m < ((column cfg table id).filter (fun v => v ≠ 0)).length :=
      Nat.not_lt.mpr hm
    simp only [hm2, if_false]
  · have hm2 : ¬ m < ((column cfg table id).filter (fun v => v ≠ 0)).length := by omega
    simp only [hm2, if_false]

/-- Witness for C17 (amended) with twelve rows and column 1 of `sampleTable`, which
holds six non-zero cells: six entries are produced and output index 6 keeps 99. -/
theorem getHalfTs_store_indices_witness :
    1 < cfg42.N ∧
    (getHalfTs cfg42 sampleTable (fun _ => 99) 1).2.2 = 6 ∧
    (getHalfTs cfg42 sampleTable (fun _ => 99) 1).2.1 6 = 99 :=
  ⟨by decide,
    ((getHalfTs_store_indices cfg42 sampleTable (fun _ => 99) 1 (by decide)).1).trans
      (by decide),
    (getHalfTs_store_indices cfg42 sampleTable (fun _ => 99) 1 (by decide)).2.2.2.2
      (by decide) 6 (by decide)⟩

/-- C18: for every table and node id, a second call of `getFullTs`, or of `getHalfTs`,
on the table the first call left returns the same sequence as the first call, whatever
the two output buffers held before (same number of entries, same entries); and when
the second call is given the buffer the first call filled, the buffer after it equals
the buffer after the first call. -/
theorem readers_idempotent (cfg : Config) (table : Nat → Nat → Nat) (ts1 ts2 : Nat → Nat)
    (id : Nat) :
    ((∀ i : Nat, i < cfg.NUM_STAMPS_PER_CYCLE →
        (getFullTs cfg (getFullTs cfg table ts1 id).1 ts2 id).2 i =
          (getFullTs cfg table ts1 id).2 i) ∧
      getFullTs cfg (getFullTs cfg table ts1 id).1 (getFullTs cfg table ts1 id).2 id =
        getFullTs cfg table ts1 id) ∧
    ((getHalfTs cfg (getHalfTs cfg table ts1 id).1 ts2 id).2.2 =
        (getHalfTs cfg table ts1 id).2.2 ∧
      (∀ k : Nat, k < (getHalfTs cfg table ts1 id).2.2 →
        (getHalfTs cfg (getHalfTs cfg table ts1 id).1 ts2 id).2.1 k =
          (getHalfTs cfg table ts1 id).2.1 k) ∧
      getHalfTs cfg (getHalfTs cfg table ts1 id).1 (getHalfTs cfg table ts1 id).2.1 id =
        getHalfTs cfg table ts1 id) := by
  refine ⟨⟨fun i hi => ?_, ?_⟩, ?_, fun k hk => ?_, ?_⟩
  · simp only [getFullTs_eq, hi, if_true]
  · simp only [getFullTs_eq]
    refine Prod.ext rfl (funext fun k => ?_)
    by_cases hk : k < cfg.NUM_STAMPS_PER_CYCLE
    · simp only [hk, if_true]
    · simp only [hk, if_false]
  · simp only [getHalfTs_eq]
  · simp only [getHalfTs_eq] at hk ⊢
    simp only [hk, if_true]
  · simp only [getHalfTs_eq]
    refine Prod.ext rfl (Prod.ext (funext fun k => ?_) rfl)
    by_cases hk : k < ((column cfg table id).filter (fun v => v ≠ 0)).length
    · simp only [hk, if_true]
    · simp only [hk, if_false]

/-- C19: for a message with a valid id, after `updateTableRx` every table cell other
than `table[w][msg.id]`, with `w` the value of `tableIndexes[msg.id]` before the call,
is unchanged, and `tableIndexes[p]` and `dataIndexes[p]` are unchanged for every node
`p` other than `msg.id`. -/
theorem updateTableRx_frame (cfg : Config) (s : State) (msg : msg_template)
    (captured : Nat) (_hid : msg.id < cfg.N) :
    (∀ i j : Nat, ¬ (i = s.tableIndexes msg.id ∧ j = msg.id) →
      (updateTableRx s msg captured).table i j = s.table i j) ∧
    (∀ p : Nat, p ≠ msg.id →
      (updateTableRx s msg captured).tableIndexes p = s.tableIndexes p ∧
      (updateTableRx s msg captured).dataIndexes p = s.dataIndexes p) := by
  rw [updateTableRx_table, updateTableRx_tableIndexes, updateTableRx_dataIndexes]
  refine ⟨fun i j h => store2_other _ _ _ _ _ _ h, fun p hp => ⟨store_other _ _ _ _ hp, ?_⟩⟩
  split
  · rfl
  · exact store_other _ _ _ _ hp

/-- Witness for C19 at `N = 4`, sender 1 with write cursor 1 and a relayed message: the
cell `table[1][3]` and the cursors of node 3 are as before the call. -/
theorem updateTableRx_frame_witness :
    (msgFrom 1 0).id < cfg42.N ∧
    (updateTableRx (cursorState 1) (msgFrom 1 0) 77).table 1 3 = (cursorState 1).table 1 3 ∧
    (updateTableRx (cursorState 1) (msgFrom 1 0) 77).tableIndexes 3 = 1 ∧
    (updateTableRx (cursorState 1) (msgFrom 1 0) 77).dataIndexes 3 = 0 :=
  ⟨by decide,
    (updateTableRx_frame cfg42 (cursorState 1) (msgFrom 1 0) 77 (by decide)).1 1 3 (by decide),
    ((updateTableRx_frame cfg42 (cursorState 1) (msgFrom 1 0) 77 (by decide)).2 3
      (by decide)).1,
    ((updateTableRx_frame cfg42 (cursorState 1) (msgFrom 1 0) 77 (by decide)).2 3
      (by decide)).2⟩

end MessageTemplate
